import Mathlib

/-!
Verification of the cloudflare-dyndns reconciliation loop (src/main.go)
against its natural-language specification.

The Go program is shallowly embedded: every network exchange is a parameter
holding what the exchange produced (response body already read and JSON
decoded, or the error returned), and each Go function becomes a pure Lean
function over those parameters. Go runtime panics (out-of-range indexing,
failed type assertions) and log.Fatal are explicit constructors of the
result type.
-/

/-- The observable outcome of a Go call returning `(T, error)`: `ok` is a
value with nil error, `err` a non-nil error carrying its message, `panic`
a runtime panic unwinding the process, `fatal` a `log.Fatal` process exit. -/
inductive GoOutcome (α : Type) where
  | ok (val : α)
  | err (msg : String)
  | panic
  | fatal
  deriving DecidableEq

/-!
Model of `domainSplitter = regexp.MustCompile("(.+)\\.(.+\\..+)")` and its
`FindStringSubmatch`. Go's regexp package gives leftmost-first (Perl-style)
submatch semantics: the match starts as early as possible in the string, and
among matches at that start the one a backtracking search finds first wins,
with `.+` greedy (longest first) and `.` matching any rune except a newline.
The functions below spell out exactly that search order for this pattern:
group 1 is `.+`, then a literal dot, then group 2 is `.+\..+`.
-/

/-- Length of the longest prefix of non-newline characters: the farthest a
run of `.` can reach from this point. -/
def dotRun : List Char → Nat
  | [] => 0
  | c :: t => if c = '\n' then 0 else dotRun t + 1

/-- One attempt of group 2's pattern `.+\..+` at the front of `r`, with the
inner `.+` taking exactly `alen` characters; the final `.+` is greedy with
nothing after it, so it takes the whole remaining non-newline run. Returns
the text of group 2 on success. -/
def tryInner (r : List Char) (alen : Nat) : Option (List Char) :=
  if alen = 0 then none
  else if alen ≤ dotRun r then
    match r.drop alen with
    | '.' :: r2 =>
      if dotRun r2 = 0 then none
      else some (r.take alen ++ '.' :: r2.take (dotRun r2))
    | _ => none
  else none

/-- Backtracking over the inner `.+` of group 2, longest first (greedy). -/
def searchInner (r : List Char) : Nat → Option (List Char)
  | 0 => none
  | n + 1 =>
    match tryInner r (n + 1) with
    | some g2 => some g2
    | none => searchInner r n

/-- Group 2 (`.+\..+`) matched at the front of `r`, greedily. -/
def matchGroup2 (r : List Char) : Option (List Char) :=
  searchInner r (dotRun r)

/-- One attempt of the whole pattern at the front of `s` with group 1 taking
exactly `g1len` characters, followed by the literal dot and group 2. -/
def tryG1 (s : List Char) (g1len : Nat) : Option (List Char × List Char) :=
  if g1len = 0 then none
  else if g1len ≤ dotRun s then
    match s.drop g1len with
    | '.' :: r => (matchGroup2 r).map (fun g2 => (s.take g1len, g2))
    | _ => none
  else none

/-- Backtracking over group 1's length, longest first (greedy). -/
def searchG1 (s : List Char) : Nat → Option (List Char × List Char)
  | 0 => none
  | n + 1 =>
    match tryG1 s (n + 1) with
    | some p => some p
    | none => searchG1 s n

/-- The pattern matched at the very front of `s` (backtracking-first). -/
def matchFrom (s : List Char) : Option (List Char × List Char) :=
  searchG1 s (dotRun s)

/-- Leftmost match: try each start position from the left. -/
def findSubmatchChars : List Char → Option (List Char × List Char)
  | [] => none
  | c :: t =>
    match matchFrom (c :: t) with
    | some p => some p
    | none => findSubmatchChars t

/-- Models `domainSplitter.FindStringSubmatch(domain)`: `none` when Go
returns nil (no match), otherwise `some (parts[1], parts[2])`, i.e. the
(record, zone) pair read by `updateDNS`. -/
def domainSplitterSubmatch (domain : String) : Option (String × String) :=
  (findSubmatchChars domain.data).map (fun p => (String.mk p.1, String.mk p.2))

example : domainSplitterSubmatch "sub.example.co.uk" = some ("sub.example", "co.uk") := by decide
example : domainSplitterSubmatch "a.b.c" = some ("a", "b.c") := by decide
example : domainSplitterSubmatch "example.com" = none := by decide
example : domainSplitterSubmatch "" = none := by decide
example : domainSplitterSubmatch "a.b..c" = some ("a", "b..c") := by decide

/-!
Model of the CloudFlare API exchanges in `resolveRecordId` and `updateDNS`.
Each HTTP exchange is a parameter: `.error e` stands for any failure of the
exchange as the Go code sees it (transport error from `http.PostForm`, body
read error, or `json.Unmarshal` error — every one is returned unchanged),
and `.ok` carries the decoded response.
-/

/-- One entry of the `rec_load_all` response's `response.recs.objs` array:
the two fields the source decodes. -/
structure CfRecord where
  id : String
  name : String
  deriving DecidableEq

/-- The decoded `rec_load_all` response (fields the source reads). -/
structure CfListResponse where
  result : String
  msg : String
  objs : List CfRecord
  deriving DecidableEq

/-- The decoded `rec_edit` response; `body` is the raw response body, which
`updateDNS` returns on success. -/
structure CfEditResponse where
  result : String
  msg : String
  body : String
  deriving DecidableEq

/-- A request posted to the provider (`https://www.cloudflare.com/api_json.html`),
with the form values the source sends. -/
inductive ProviderCall where
  | recLoadAll (email tkn z : String)
  | recEdit (email tkn z id recType name : String) (ttl : Nat) (content : String)
  deriving DecidableEq

/-- What the provider produces for the (at most) two exchanges of one
`updateDNS` invocation. -/
structure ProviderEnv where
  listResp : Except String CfListResponse
  editResp : Except String CfEditResponse

/-- Models `resolveRecordId(user, key, zone, record)`: posts `rec_load_all`,
checks the `result` field, then scans `objs` in order and returns the id of
the first record whose `display_name` equals `record` (the loop returns on
the first hit); no match is the "unknown record" error. Also returns the
provider calls made. -/
def resolveRecordId (user key zone record : String)
    (listResp : Except String CfListResponse) :
    Except String String × List ProviderCall :=
  let call := ProviderCall.recLoadAll user key zone
  match listResp with
  | .error e => (.error e, [call])
  | .ok resp =>
    if resp.result = "error" then
      (.error ("request denied: " ++ resp.msg), [call])
    else
      match resp.objs.find? (fun o => o.name == record) with
      | some o => (.ok o.id, [call])
      | none => (.error "unknown record", [call])

/-- Models `updateDNS(address, user, key, domain, ttl)`. The source runs
`parts := domainSplitter.FindStringSubmatch(domain)` and immediately indexes
`parts[2]` and `parts[1]`: when the regex does not match, `parts` is nil and
the indexing panics. Otherwise it resolves the record id for the split
(zone, record), posts `rec_edit` with type "A", name = record, the given ttl
and the address as content, and fails iff the response's `result` is
"error". -/
def updateDNS (address user key domain : String) (ttl : Nat)
    (env : ProviderEnv) : GoOutcome String × List ProviderCall :=
  match domainSplitterSubmatch domain with
  | none => (.panic, [])
  | some (record, zone) =>
    match resolveRecordId user key zone record env.listResp with
    | (.error e, calls) => (.err ("record id resolution failed: " ++ e), calls)
    | (.ok id, calls) =>
      let edit := ProviderCall.recEdit user key zone id "A" record ttl address
      match env.editResp with
      | .error e => (.err e, calls ++ [edit])
      | .ok resp =>
        if resp.result = "error" then
          (.err ("request denied: " ++ resp.msg), calls ++ [edit])
        else
          (.ok resp.body, calls ++ [edit])

/-!
Model of `resolveAddress` and `httpClientWithIface`. The two "what is my IP"
exchanges are parameters (`.ok body` = the full response body read, `.error`
= transport or read failure); the interface lookup is a parameter as well.
-/

/-- A `net.Addr` as `httpClientWithIface` sees one: either a `*net.IPNet`
(what the type assertion expects) or any other implementation. -/
inductive GoNetAddr where
  | ipNet (ip : String)
  | other
  deriving DecidableEq

/-- What the kernel reports for the named interface: the
`net.InterfaceByName` outcome and the `ief.Addrs()` outcome. -/
structure IfaceEnv where
  byName : Except String Unit
  addrs : Except String (List GoNetAddr)

/-- The only thing the loop observes about the built `http.Client`: the
local address its dialer was bound to, if any. -/
structure HttpClient where
  localIP : Option String
  deriving DecidableEq

/-- Models `httpClientWithIface(iface)`: lookup errors are returned, but a
successful lookup is followed by unchecked `addrs[0].(*net.IPNet)` — an
empty address list panics on the indexing, and a first address that is not
a `*net.IPNet` panics on the type assertion. -/
def httpClientWithIface (env : IfaceEnv) : GoOutcome HttpClient :=
  match env.byName with
  | .error e => .err e
  | .ok _ =>
    match env.addrs with
    | .error e => .err e
    | .ok [] => .panic
    | .ok (GoNetAddr.ipNet ip :: _) => .ok { localIP := some ip }
    | .ok (GoNetAddr.other :: _) => .panic

/-- Models `resolveAddress()`: `ifaceEnv` is `none` when `*ifaceFlag` is
empty (default client); otherwise the client is built from the interface,
where an error becomes `log.Fatal` and a panic propagates. Then the two
services are queried in turn and the bodies compared byte for byte
(`bytes.Compare != 0` is exactly string inequality); the conflict error
carries both raw values. No other validation of the bodies happens. -/
def resolveAddress (ifaceEnv : Option IfaceEnv)
    (get1 get2 : Except String String) : GoOutcome String :=
  let setup : GoOutcome HttpClient :=
    match ifaceEnv with
    | none => .ok { localIP := none }
    | some env =>
      match httpClientWithIface env with
      | .err _ => .fatal
      | .panic => .panic
      | .fatal => .fatal
      | .ok c => .ok c
  match setup with
  | .panic => .panic
  | .fatal => .fatal
  | .err e => .err e
  | .ok _ =>
    match get1 with
    | .error e => .err e
    | .ok potential =>
      match get2 with
      | .error e => .err e
      | .ok confirm =>
        if potential = confirm then .ok potential
        else .err ("resolution conflict: " ++ potential ++ " != " ++ confirm)

/-!
Model of `main`'s reconciliation loop. The flag values are a parameter
record; each loop iteration's external interactions (the `resolveAddress`
outcome and the provider's behaviour for each `updateDNS` call) come in a
per-cycle environment. The model records the per-domain `results` slice,
every `sendMail` invocation, every provider call, and whether the process
died (a panic unwinding out of `updateDNS`); `time.Sleep` is dropped.
-/

/-- The flag values `main` reads inside the loop. `*updateFlag` (the sleep
interval), `*mailFlag` (only read inside `sendMail`) and `*ifaceFlag` (only
read inside `resolveAddress`, already a parameter there) do not change the
loop's observable behaviour and are left out. -/
structure Flags where
  userFlag : String
  keyFlag : String
  domainsFlag : String
  ttlFlag : Nat

/-- The chunks of a character list between occurrences of `sep`; always a
nonempty list of chunks, with empty chunks for adjacent separators, like
Go's `strings.Split`. -/
def splitChars (sep : Char) : List Char → List (List Char)
  | [] => [[]]
  | c :: t =>
    if c = sep then [] :: splitChars sep t
    else
      match splitChars sep t with
      | [] => [[c]]
      | h :: r => (c :: h) :: r

/-- Models Go's `strings.Split(s, sep)` for a single-character separator
(the source only splits on ","): `strings.Split("", ",") = [""]`. -/
def stringsSplit (sep : Char) (s : String) : List String :=
  (splitChars sep s.data).map String.mk

/-- What one pass of the per-domain `for` loop produced: the `results`
entries appended (a `(host, error)` pair each, `none` for a nil error), the
provider calls made, the value of `previous` after the pass, and whether a
panic inside `updateDNS` unwound the process (aborting the pass). -/
structure DomainsOutcome where
  results : List (String × Option String)
  calls : List ProviderCall
  previous : String
  aborted : Bool
  deriving DecidableEq

/-- The per-domain `for` loop of `main`: each host gets one `updateDNS`
call; on error the loop logs, appends `(host, err)` and continues; on
success it appends `(host, nil)` and sets `previous = address`; a panic
kills the process, so later hosts are never attempted. -/
def processDomains (cfg : Flags) (address : String) (env : Nat → ProviderEnv) :
    List String → Nat → String → DomainsOutcome
  | [], _, prev => { results := [], calls := [], previous := prev, aborted := false }
  | host :: rest, i, prev =>
    match updateDNS address cfg.userFlag cfg.keyFlag host cfg.ttlFlag (env i) with
    | (.ok _, calls) =>
      let tail := processDomains cfg address env rest (i + 1) address
      { results := (host, none) :: tail.results, calls := calls ++ tail.calls,
        previous := tail.previous, aborted := tail.aborted }
    | (.err e, calls) =>
      let tail := processDomains cfg address env rest (i + 1) prev
      { results := (host, some e) :: tail.results, calls := calls ++ tail.calls,
        previous := tail.previous, aborted := tail.aborted }
    | (.panic, calls) => { results := [], calls := calls, previous := prev, aborted := true }
    | (.fatal, calls) => { results := [], calls := calls, previous := prev, aborted := true }

/-- The loop's mutable variables: `starting := true` and `previous := ""`
before the first iteration. -/
structure LoopState where
  starting : Bool
  previous : String
  deriving DecidableEq

/-- The state `main` enters the loop with. -/
def initialState : LoopState := { starting := true, previous := "" }

/-- One cycle's external world: what `resolveAddress` produced, and the
provider's behaviour for the i-th `updateDNS` call of the cycle. -/
structure CycleEnv where
  resolution : GoOutcome String
  provider : Nat → ProviderEnv

/-- Everything one loop iteration did: the `results` slice, the `sendMail`
invocations (ip argument and results argument), the provider calls, whether
the process died during the cycle, and the loop variables afterwards. -/
structure CycleOutput where
  results : List (String × Option String)
  mails : List (String × List (String × Option String))
  calls : List ProviderCall
  aborted : Bool
  state : LoopState

/-- One iteration of `main`'s `for` loop. Resolution failure: append
`("all", err)`, call `sendMail("", results)` and `continue` (so `starting`
is left untouched). Resolution success with `address == previous`: do
nothing — no provider call, no domain processed, no mail. Otherwise run the
per-domain loop, and call `sendMail(address, results)` only when `starting`
is false; either way `starting = false` runs after the `if`. -/
def runCycle (cfg : Flags) (st : LoopState) (env : CycleEnv) : CycleOutput :=
  match env.resolution with
  | .err e =>
    { results := [("all", some e)], mails := [("", [("all", some e)])],
      calls := [], aborted := false, state := st }
  | .panic => { results := [], mails := [], calls := [], aborted := true, state := st }
  | .fatal => { results := [], mails := [], calls := [], aborted := true, state := st }
  | .ok address =>
    if address = st.previous then
      { results := [], mails := [], calls := [], aborted := false,
        state := { starting := false, previous := st.previous } }
    else
      let pass := processDomains cfg address env.provider
        (stringsSplit ',' cfg.domainsFlag) 0 st.previous
      if pass.aborted then
        { results := pass.results, mails := [], calls := pass.calls,
          aborted := true, state := { starting := st.starting, previous := pass.previous } }
      else
        { results := pass.results,
          mails := if st.starting then [] else [(address, pass.results)],
          calls := pass.calls, aborted := false,
          state := { starting := false, previous := pass.previous } }

/-- The loop run over a list of cycle environments (one per timer tick),
stopping early if the process dies. -/
def runCycles (cfg : Flags) : LoopState → List CycleEnv → List CycleOutput
  | _, [] => []
  | st, e :: rest =>
    let out := runCycle cfg st e
    if out.aborted then [out]
    else out :: runCycles cfg out.state rest

/-- Whether a provider call is a `rec_edit` (record update) request. -/
def ProviderCall.isEdit : ProviderCall → Bool
  | .recEdit .. => true
  | .recLoadAll .. => false

/-- The number of `rec_edit` provider calls a cycle made. -/
def countEdits (out : CycleOutput) : Nat :=
  out.calls.countP ProviderCall.isEdit

/-!
Claim theorems.
-/

/-- C1 counterexample: the claim says splitting "sub.example.co.uk" yields
recordLabel "sub" and zone "example.co.uk" (a 3-label zone). The greedy
regex instead yields recordLabel "sub.example" and zone "co.uk", so the
claimed pair is not produced. -/
theorem C1_counterexample :
    domainSplitterSubmatch "sub.example.co.uk" = some ("sub.example", "co.uk") ∧
    domainSplitterSubmatch "sub.example.co.uk" ≠ some ("sub", "example.co.uk") := by
  decide

/-- C1 amended: the domain-splitting step of updateDNS on "sub.example.co.uk"
yields recordLabel "sub.example" and zone "co.uk" (the greedy first group
takes everything before the last two labels), and updateDNS consequently
addresses the provider zone "co.uk". -/
theorem C1_split :
    domainSplitterSubmatch "sub.example.co.uk" = some ("sub.example", "co.uk") ∧
    (updateDNS "1.2.3.4" "u" "k" "sub.example.co.uk" 120
      { listResp := .error "transport", editResp := .error "transport" }).2 =
      [ProviderCall.recLoadAll "u" "k" "co.uk"] := by
  decide

/-- C9: for every pair of resolution-service response bodies, byte-identical
bodies make resolveAddress return the body, and differing bodies make it
fail with the conflict error carrying both raw values; the quantification
over arbitrary strings shows no well-formedness validation is applied. -/
theorem C9_resolve (a b : String) :
    (a = b → resolveAddress none (.ok a) (.ok b) = .ok a) ∧
    (a ≠ b → resolveAddress none (.ok a) (.ok b) =
      .err ("resolution conflict: " ++ a ++ " != " ++ b)) := by
  constructor
  · intro h
    subst h
    simp [resolveAddress]
  · intro h
    simp [resolveAddress, h]

/-- C9 witness: the two branches at concrete inputs. -/
theorem C9_resolve_witness :
    resolveAddress none (.ok "5.6.7.8") (.ok "5.6.7.8") = .ok "5.6.7.8" ∧
    resolveAddress none (.ok "1.2.3.4") (.ok "5.6.7.8") =
      .err ("resolution conflict: " ++ "1.2.3.4" ++ " != " ++ "5.6.7.8") :=
  ⟨(C9_resolve "5.6.7.8" "5.6.7.8").1 rfl,
   (C9_resolve "1.2.3.4" "5.6.7.8").2 (by decide)⟩

/-- C10: when the named interface resolves but reports zero addresses,
httpClientWithIface panics on the `addrs[0]` indexing; when the first
address is not a `*net.IPNet`, it panics on the type assertion; and either
panic propagates out of resolveAddress when the interface flag is set —
none of these return through the error result. -/
theorem C10_iface_panics :
    (∀ env : IfaceEnv, env.byName = .ok () → env.addrs = .ok [] →
      httpClientWithIface env = .panic) ∧
    (∀ (env : IfaceEnv) (rest : List GoNetAddr), env.byName = .ok () →
      env.addrs = .ok (GoNetAddr.other :: rest) →
      httpClientWithIface env = .panic) ∧
    (∀ (env : IfaceEnv) (get1 get2 : Except String String),
      httpClientWithIface env = .panic →
      resolveAddress (some env) get1 get2 = .panic) := by
  refine ⟨?_, ?_, ?_⟩
  · intro env h1 h2
    simp [httpClientWithIface, h1, h2]
  · intro env rest h1 h2
    simp [httpClientWithIface, h1, h2]
  · intro env get1 get2 h
    simp [resolveAddress, h]

/-- C10 witness: a concrete interface with an empty address list panics,
also through resolveAddress. -/
theorem C10_iface_panics_witness :
    httpClientWithIface { byName := .ok (), addrs := .ok [] } = .panic ∧
    resolveAddress (some { byName := .ok (), addrs := .ok [] })
      (.ok "1.2.3.4") (.ok "1.2.3.4") = .panic :=
  ⟨C10_iface_panics.1 _ rfl rfl,
   C10_iface_panics.2.2 _ _ _ (C10_iface_panics.1 _ rfl rfl)⟩

/-- C4: in every cycle whose successfully resolved address equals the
loop's `previous`, the cycle makes no provider call of any kind, processes
no domain at all (the equality is checked once, before the per-domain
loop), and sends no mail; only `starting` is cleared. -/
theorem C4_unchanged_skips_provider (cfg : Flags) (st : LoopState)
    (env : CycleEnv) (a : String)
    (hres : env.resolution = .ok a) (heq : a = st.previous) :
    (runCycle cfg st env).calls = [] ∧
    (runCycle cfg st env).results = [] ∧
    (runCycle cfg st env).mails = [] ∧
    (runCycle cfg st env).state = { starting := false, previous := st.previous } := by
  subst heq
  simp [runCycle, hres]

/-- C4 witness: a concrete unchanged cycle. -/
theorem C4_unchanged_skips_provider_witness :
    (runCycle { userFlag := "u", keyFlag := "k", domainsFlag := "a.b.c", ttlFlag := 120 }
      { starting := false, previous := "1.1.1.1" }
      { resolution := .ok "1.1.1.1",
        provider := fun _ => { listResp := .error "t", editResp := .error "t" } }).calls = [] ∧
    (runCycle { userFlag := "u", keyFlag := "k", domainsFlag := "a.b.c", ttlFlag := 120 }
      { starting := false, previous := "1.1.1.1" }
      { resolution := .ok "1.1.1.1",
        provider := fun _ => { listResp := .error "t", editResp := .error "t" } }).results = [] ∧
    (runCycle { userFlag := "u", keyFlag := "k", domainsFlag := "a.b.c", ttlFlag := 120 }
      { starting := false, previous := "1.1.1.1" }
      { resolution := .ok "1.1.1.1",
        provider := fun _ => { listResp := .error "t", editResp := .error "t" } }).state =
      { starting := false, previous := "1.1.1.1" } := by
  have h := C4_unchanged_skips_provider
    { userFlag := "u", keyFlag := "k", domainsFlag := "a.b.c", ttlFlag := 120 }
    { starting := false, previous := "1.1.1.1" }
    { resolution := .ok "1.1.1.1",
      provider := fun _ => { listResp := .error "t", editResp := .error "t" } }
    "1.1.1.1" rfl rfl
  exact ⟨h.1, h.2.1, h.2.2.2⟩

/-!
A successful match of the splitting pattern consumes at least two dots, so
a domain with fewer than three dot-separated labels (fewer than two dots)
leaves `FindStringSubmatch` with no match — and `updateDNS` indexing nil.
-/

lemma tryInner_dot_mem {r : List Char} {alen : Nat} {g2 : List Char}
    (h : tryInner r alen = some g2) : '.' ∈ r := by
  unfold tryInner at h
  split at h
  · exact absurd h (by simp)
  · split at h
    · rcases hd : r.drop alen with _ | ⟨c, r2⟩ <;> rw [hd] at h
      · simp at h
      · have hc : c = '.' := by
          by_contra hc
          have : (match c :: r2 with
            | '.' :: r2 =>
              if dotRun r2 = 0 then none
              else some (r.take alen ++ '.' :: r2.take (dotRun r2))
            | _ => (none : Option (List Char))) = none := by
            cases c
            simp_all [Char.ext_iff]
          rw [this] at h
          exact absurd h (by simp)
        subst hc
        exact List.mem_of_mem_drop (hd ▸ List.mem_cons_self '.' r2)
    · exact absurd h (by simp)

lemma searchInner_dot_mem {r : List Char} {g2 : List Char} :
    ∀ {n : Nat}, searchInner r n = some g2 → '.' ∈ r := by
  intro n
  induction n with
  | zero => intro h; exact absurd h (by simp [searchInner])
  | succ n ih =>
    intro h
    unfold searchInner at h
    rcases ht : tryInner r (n + 1) with _ | g2h <;> rw [ht] at h
    · exact ih h
    · exact tryInner_dot_mem ht

lemma tryG1_two_dots {s : List Char} {g1len : Nat} {p : List Char × List Char}
    (h : tryG1 s g1len = some p) : 2 ≤ s.count '.' := by
  unfold tryG1 at h
  split at h
  · exact absurd h (by simp)
  · split at h
    · rcases hd : s.drop g1len with _ | ⟨c, r⟩ <;> rw [hd] at h
      · simp at h
      · have hc : c = '.' := by
          by_contra hc
          have : (match c :: r with
            | '.' :: r => (matchGroup2 r).map (fun g2 => (s.take g1len, g2))
            | _ => (none : Option (List Char × List Char))) = none := by
            cases c
            simp_all [Char.ext_iff]
          rw [this] at h
          exact absurd h (by simp)
        subst hc
        have h' : (matchGroup2 r).map (fun g2 => (s.take g1len, g2)) = some p := h
        rcases hm : matchGroup2 r with _ | g2 <;> rw [hm] at h'
        · simp at h'
        · have hr : '.' ∈ r := searchInner_dot_mem hm
          have h1 : 0 < r.count '.' := List.count_pos_iff.mpr hr
          have h2 : s.count '.' = (s.take g1len).count '.' + (s.drop g1len).count '.' := by
            conv_lhs => rw [← List.take_append_drop g1len s]
            exact List.count_append _ _ _
          rw [hd] at h2
          simp [List.count_cons] at h2
          omega
    · exact absurd h (by simp)

lemma searchG1_two_dots {s : List Char} {p : List Char × List Char} :
    ∀ {n : Nat}, searchG1 s n = some p → 2 ≤ s.count '.' := by
  intro n
  induction n with
  | zero => intro h; exact absurd h (by simp [searchG1])
  | succ n ih =>
    intro h
    unfold searchG1 at h
    rcases ht : tryG1 s (n + 1) with _ | q <;> rw [ht] at h
    · exact ih h
    · exact tryG1_two_dots ht

lemma findSubmatchChars_two_dots :
    ∀ {s : List Char} {p : List Char × List Char},
      findSubmatchChars s = some p → 2 ≤ s.count '.' := by
  intro s
  induction s with
  | nil => intro p h; exact absurd h (by simp [findSubmatchChars])
  | cons c t ih =>
    intro p h
    unfold findSubmatchChars at h
    rcases hm : matchFrom (c :: t) with _ | q <;> rw [hm] at h
    · have := ih h
      have hc : t.count '.' ≤ (c :: t).count '.' := by
        simp [List.count_cons]
      omega
    · exact searchG1_two_dots hm

lemma splitChars_ne_nil (sep : Char) : ∀ l : List Char, splitChars sep l ≠ [] := by
  intro l
  cases l with
  | nil => simp [splitChars]
  | cons c t =>
    unfold splitChars
    split
    · simp
    · rcases hs : splitChars sep t with _ | ⟨h2, r⟩ <;> simp

lemma splitChars_length (sep : Char) :
    ∀ l : List Char, (splitChars sep l).length = l.count sep + 1 := by
  intro l
  induction l with
  | nil => simp [splitChars]
  | cons c t ih =>
    by_cases hc : c = sep
    · subst hc
      simp [splitChars, List.count_cons, ih]
    · rcases hs : splitChars sep t with _ | ⟨h2, r⟩
      · exact absurd hs (splitChars_ne_nil sep t)
      · rw [hs] at ih
        simp only [splitChars, if_neg hc, hs]
        simp only [List.length_cons] at ih ⊢
        simp [List.count_cons, hc, Ne.symm hc]
        omega

/-- A domain with fewer than three dot-separated labels has fewer than two
dots, so the splitting regex finds no match. -/
lemma domainSplitterSubmatch_eq_none {domain : String}
    (h : (stringsSplit '.' domain).length < 3) :
    domainSplitterSubmatch domain = none := by
  unfold domainSplitterSubmatch
  rcases hf : findSubmatchChars domain.data with _ | p
  · simp
  · exfalso
    have h2 := findSubmatchChars_two_dots hf
    have h3 : (stringsSplit '.' domain).length = domain.data.count '.' + 1 := by
      simp [stringsSplit, splitChars_length]
    omega

/-- C2 counterexample: the bare two-label name "example.com" (2 labels,
fewer than 3) makes updateDNS panic — the outcome is the nil-slice indexing
panic, not a returned error of any kind (though indeed no provider call is
made). -/
theorem C2_counterexample :
    (stringsSplit '.' "example.com").length = 2 ∧
    updateDNS "1.2.3.4" "u" "k" "example.com" 120
      { listResp := .error "t", editResp := .error "t" } = (.panic, []) := by
  decide

/-- C2 amended: for every domain name with fewer than 3 dot-separated labels
(the empty string included), updateDNS panics — `FindStringSubmatch` returns
nil and `parts[2]` indexes it — before making any provider call; it does not
return an error. -/
theorem C2_few_labels_panic (domain : String)
    (h : (stringsSplit '.' domain).length < 3)
    (address user key : String) (ttl : Nat) (env : ProviderEnv) :
    updateDNS address user key domain ttl env = (.panic, []) := by
  have hs := domainSplitterSubmatch_eq_none h
  simp [updateDNS, hs]

/-- C2 witness: the amended theorem at the empty domain string. -/
theorem C2_few_labels_panic_witness :
    updateDNS "9.9.9.9" "user" "key" "" 240
      { listResp := .error "x", editResp := .error "x" } = (.panic, []) :=
  C2_few_labels_panic "" (by decide) "9.9.9.9" "user" "key" 240
    { listResp := .error "x", editResp := .error "x" }

/-!
Record-id resolution: what the scan over the zone listing picks.
-/

lemma find?_first_of_prefix_miss {α : Type} (p : α → Bool) :
    ∀ (pre : List α) (o : α) (post : List α),
      (∀ x ∈ pre, p x = false) → p o = true →
      List.find? p (pre ++ o :: post) = some o := by
  intro pre
  induction pre with
  | nil =>
    intro o post _ hp
    simpa using List.find?_cons_of_pos post hp
  | cons x pre ih =>
    intro o post hpre hp
    have hx : p x = false := hpre x (by simp)
    rw [List.cons_append, List.find?_cons_of_neg _ (by simp [hx])]
    exact ih o post (fun y hy => hpre y (by simp [hy])) hp

/-- C3 counterexample: for domain "sub.foo.com" (record label "sub"), a
zone listing with two records both displaying "sub" — neither display name
equals the full domain string — does not produce UnknownRecord: the code
silently picks the first match ("id1") and the update succeeds, posting
rec_edit for that id. -/
theorem C3_counterexample :
    updateDNS "1.2.3.4" "u" "k" "sub.foo.com" 120
      { listResp := .ok
          { result := "succ", msg := "",
            objs := [{ id := "id1", name := "sub" }, { id := "id2", name := "sub" }] },
        editResp := .ok { result := "succ", msg := "", body := "BODY" } } =
      (.ok "BODY",
        [ProviderCall.recLoadAll "u" "k" "foo.com",
         ProviderCall.recEdit "u" "k" "foo.com" "id1" "A" "sub" 120 "1.2.3.4"]) := by
  decide

/-- C3 amended: record-id resolution compares each record's display name to
the record label (updateDNS passes `parts[1]`, not the full domain) and
returns the first record that matches, even when several do; zero matches
fail with the "unknown record" error; and an error-returning updateDNS on
one domain leaves the remaining domains' processing unchanged. -/
theorem C3_first_label_match :
    (∀ (user key zone record : String) (resp : CfListResponse),
      resp.result ≠ "error" → (∀ o ∈ resp.objs, o.name ≠ record) →
      (resolveRecordId user key zone record (.ok resp)).1 = .error "unknown record") ∧
    (∀ (user key zone record : String) (resp : CfListResponse)
      (pre post : List CfRecord) (o : CfRecord),
      resp.result ≠ "error" → resp.objs = pre ++ o :: post →
      (∀ q ∈ pre, q.name ≠ record) → o.name = record →
      (resolveRecordId user key zone record (.ok resp)).1 = .ok o.id) ∧
    (∀ (cfg : Flags) (address : String) (env : Nat → ProviderEnv)
      (host : String) (rest : List String) (i : Nat) (prev : String)
      (e : String) (calls : List ProviderCall),
      updateDNS address cfg.userFlag cfg.keyFlag host cfg.ttlFlag (env i) = (.err e, calls) →
      processDomains cfg address env (host :: rest) i prev =
        { results := (host, some e) :: (processDomains cfg address env rest (i + 1) prev).results,
          calls := calls ++ (processDomains cfg address env rest (i + 1) prev).calls,
          previous := (processDomains cfg address env rest (i + 1) prev).previous,
          aborted := (processDomains cfg address env rest (i + 1) prev).aborted }) := by
  refine ⟨?_, ?_, ?_⟩
  · intro user key zone record resp hres hnone
    have hfind : resp.objs.find? (fun o => o.name == record) = none := by
      rw [List.find?_eq_none]
      intro o ho
      simpa using hnone o ho
    simp [resolveRecordId, hres, hfind]
  · intro user key zone record resp pre post o hres hobjs hpre ho
    have hfind : resp.objs.find? (fun q => q.name == record) = some o := by
      rw [hobjs]
      exact find?_first_of_prefix_miss _ pre o post
        (fun q hq => by simpa using hpre q hq) (by simpa using ho)
    simp [resolveRecordId, hres, hfind]
  · intro cfg address env host rest i prev e calls hu
    simp [processDomains, hu]

/-- C3 witness: the zero-match branch at a concrete listing. -/
theorem C3_first_label_match_witness :
    (resolveRecordId "u" "k" "b.c" "a"
      (.ok { result := "succ", msg := "", objs := [{ id := "i1", name := "x" }] })).1 =
      .error "unknown record" :=
  C3_first_label_match.1 "u" "k" "b.c" "a"
    { result := "succ", msg := "", objs := [{ id := "i1", name := "x" }] }
    (by decide) (by decide)

/-!
How `previous` moves through the per-domain loop: it is written only by the
`previous = address` assignment after a successful update, so after any
success it equals the cycle's address, with no success it is untouched, and
in every case it is one of the two.
-/

lemma processDomains_previous (cfg : Flags) (address : String)
    (env : Nat → ProviderEnv) :
    ∀ (hosts : List String) (i : Nat) (prev : String),
      ((processDomains cfg address env hosts i prev).results.any
          (fun r => r.2.isNone) = true →
        (processDomains cfg address env hosts i prev).previous = address) ∧
      ((processDomains cfg address env hosts i prev).results.all
          (fun r => r.2.isSome) = true →
        (processDomains cfg address env hosts i prev).previous = prev) ∧
      ((processDomains cfg address env hosts i prev).previous = prev ∨
        (processDomains cfg address env hosts i prev).previous = address) := by
  intro hosts
  induction hosts with
  | nil =>
    intro i prev
    simp [processDomains]
  | cons host rest ih =>
    intro i prev
    rcases hu : updateDNS address cfg.userFlag cfg.keyFlag host cfg.ttlFlag (env i)
      with ⟨res, calls⟩
    cases res with
    | ok v =>
      have ihn := ih (i + 1) address
      refine ⟨?_, ?_, ?_⟩ <;> simp only [processDomains, hu]
      · intro _
        rcases ihn.2.2 with h | h <;> exact h
      · intro hall
        simp at hall
      · rcases ihn.2.2 with h | h <;> exact Or.inr h
    | err e =>
      have ihn := ih (i + 1) prev
      refine ⟨?_, ?_, ?_⟩ <;> simp only [processDomains, hu]
      · intro hany
        simp only [List.any_cons, Option.isNone_some, Bool.false_or] at hany
        exact ihn.1 hany
      · intro hall
        simp only [List.all_cons, Option.isSome_some, Bool.true_and] at hall
        exact ihn.2.1 hall
      · exact ihn.2.2
    | panic =>
      refine ⟨?_, ?_, ?_⟩ <;> simp [processDomains, hu]
    | fatal =>
      refine ⟨?_, ?_, ?_⟩ <;> simp [processDomains, hu]

lemma runCycle_prev_success (cfg : Flags) (st : LoopState) (env : CycleEnv)
    (a : String) (hres : env.resolution = .ok a)
    (hany : (runCycle cfg st env).results.any (fun r => r.2.isNone) = true) :
    (runCycle cfg st env).state.previous = a := by
  have hp := processDomains_previous cfg a env.provider
    (stringsSplit ',' cfg.domainsFlag) 0 st.previous
  by_cases ha : a = st.previous
  · simp [runCycle, hres, ha] at hany
  · simp only [runCycle, hres] at hany ⊢
    rw [if_neg ha] at hany ⊢
    by_cases hab : (processDomains cfg a env.provider
        (stringsSplit ',' cfg.domainsFlag) 0 st.previous).aborted <;>
      simp only [hab, if_true, if_false] at hany ⊢ <;>
      exact hp.1 hany

lemma runCycle_prev_unchanged (cfg : Flags) (st : LoopState) (env : CycleEnv)
    (hall : (runCycle cfg st env).results.all (fun r => r.2.isSome) = true) :
    (runCycle cfg st env).state.previous = st.previous := by
  cases hres : env.resolution with
  | ok a =>
    have hp := processDomains_previous cfg a env.provider
      (stringsSplit ',' cfg.domainsFlag) 0 st.previous
    by_cases ha : a = st.previous
    · simp [runCycle, hres, ha]
    · simp only [runCycle, hres] at hall ⊢
      rw [if_neg ha] at hall ⊢
      by_cases hab : (processDomains cfg a env.provider
          (stringsSplit ',' cfg.domainsFlag) 0 st.previous).aborted <;>
        simp only [hab, if_true, if_false] at hall ⊢ <;>
        exact hp.2.1 hall
  | err e => simp [runCycle, hres]
  | panic => simp [runCycle, hres]
  | fatal => simp [runCycle, hres]

lemma runCycle_prev_cases (cfg : Flags) (st : LoopState) (env : CycleEnv) :
    (runCycle cfg st env).state.previous = st.previous ∨
      ∃ a, env.resolution = .ok a ∧ (runCycle cfg st env).state.previous = a := by
  cases hres : env.resolution with
  | ok a =>
    have hp := processDomains_previous cfg a env.provider
      (stringsSplit ',' cfg.domainsFlag) 0 st.previous
    by_cases ha : a = st.previous
    · left
      simp [runCycle, hres, ha]
    · simp only [runCycle, hres]
      rw [if_neg ha]
      by_cases hab : (processDomains cfg a env.provider
          (stringsSplit ',' cfg.domainsFlag) 0 st.previous).aborted <;>
        simp only [hab, if_true, if_false] <;>
        rcases hp.2.2 with h | h
      · exact Or.inl h
      · exact Or.inr ⟨a, rfl, h⟩
      · exact Or.inl h
      · exact Or.inr ⟨a, rfl, h⟩
  | err e => left; simp [runCycle, hres]
  | panic => left; simp [runCycle, hres]
  | fatal => left; simp [runCycle, hres]

/-- A provider behaviour under which the update of "a.b.c" (record label
"a", zone "b.c") succeeds. -/
def aRecordEnv : ProviderEnv :=
  { listResp := .ok
      { result := "succ", msg := "", objs := [{ id := "rid-a", name := "a" }] },
    editResp := .ok { result := "succ", msg := "", body := "edit-ok" } }

/-- A provider behaviour under which the update of "d.e.f" (record label
"d", zone "e.f") succeeds. -/
def dRecordEnv : ProviderEnv :=
  { listResp := .ok
      { result := "succ", msg := "", objs := [{ id := "rid-d", name := "d" }] },
    editResp := .ok { result := "succ", msg := "", body := "edit-ok" } }

/-- A provider behaviour under which every update fails (the listing is
denied), so no domain update succeeds. -/
def deniedEnv : ProviderEnv :=
  { listResp := .ok { result := "error", msg := "denied", objs := [] },
    editResp := .error "t" }

/-- Flags with the single configured domain "a.b.c". -/
def oneDomainFlags : Flags :=
  { userFlag := "u", keyFlag := "k", domainsFlag := "a.b.c", ttlFlag := 120 }

/-- C5 counterexample: `previous` is set to "1.1.1.1" by a successful first
cycle, and a later cycle that successfully resolves the empty string (two
empty resolution-service bodies agree, and nothing validates them) and
successfully updates the domain resets `previous` to empty — so "never
reset to empty once set" fails on the code. -/
theorem C5_counterexample :
    (runCycles oneDomainFlags initialState
      [{ resolution := .ok "1.1.1.1", provider := fun _ => aRecordEnv },
       { resolution := .ok "", provider := fun _ => aRecordEnv }]).map
      (fun o => o.state.previous) = ["1.1.1.1", ""] ∧
    ("1.1.1.1" : String) ≠ "" := by
  decide

/-- C5 amended: `previous` starts empty, is unchanged by any cycle in which
no domain update succeeds (failed resolutions and failed updates included),
equals the cycle's resolved address as soon as any domain update succeeds
in the cycle (later failures do not undo it), and never takes any value
other than its old one or the resolved address — so it can become empty
again only when a cycle resolves the empty string and applies it. -/
theorem C5_previous_invariants (cfg : Flags) (st : LoopState) (env : CycleEnv) :
    initialState.previous = "" ∧
    ((runCycle cfg st env).results.all (fun r => r.2.isSome) = true →
      (runCycle cfg st env).state.previous = st.previous) ∧
    (∀ a, env.resolution = .ok a →
      (runCycle cfg st env).results.any (fun r => r.2.isNone) = true →
      (runCycle cfg st env).state.previous = a) ∧
    ((runCycle cfg st env).state.previous = st.previous ∨
      ∃ a, env.resolution = .ok a ∧ (runCycle cfg st env).state.previous = a) :=
  ⟨rfl, runCycle_prev_unchanged cfg st env,
   fun a hres hany => runCycle_prev_success cfg st env a hres hany,
   runCycle_prev_cases cfg st env⟩

/-- C5 witness: a concrete cycle with a successful update adopts the new
address. -/
theorem C5_previous_invariants_witness :
    (runCycle oneDomainFlags initialState
      { resolution := .ok "1.1.1.1", provider := fun _ => aRecordEnv }).state.previous =
      "1.1.1.1" :=
  (C5_previous_invariants oneDomainFlags initialState
    { resolution := .ok "1.1.1.1", provider := fun _ => aRecordEnv }).2.2.1
    "1.1.1.1" rfl (by decide)

/-- C6 counterexample: a first-ever successful resolution ("1.1.1.1" with
`previous` empty) in which the only domain's update fails leaves the
address bookkeeping untouched — `previous` stays "" instead of updating —
while the claim asserts the bookkeeping updates on every first successful
resolution. (The sink is indeed silent.) -/
theorem C6_counterexample :
    (runCycle oneDomainFlags initialState
      { resolution := .ok "1.1.1.1", provider := fun _ => deniedEnv }).state.previous = "" ∧
    ("" : String) ≠ "1.1.1.1" ∧
    (runCycle oneDomainFlags initialState
      { resolution := .ok "1.1.1.1", provider := fun _ => deniedEnv }).mails = [] := by
  decide

/-- C6 amended: on the first-ever successful resolution (state still
`initialState`: `starting` true, `lastAppliedAddress` empty) the report
sink receives no invocation whatever the domains do, and the address
bookkeeping updates to the new address provided at least one domain update
succeeds; on a first-cycle failed resolution the sink is invoked (with the
empty address and the whole-cycle "all" outcome). -/
theorem C6_first_cycle (cfg : Flags) (env : CycleEnv) :
    (∀ a, env.resolution = .ok a →
      (runCycle cfg initialState env).mails = []) ∧
    (∀ a, env.resolution = .ok a →
      (runCycle cfg initialState env).results.any (fun r => r.2.isNone) = true →
      (runCycle cfg initialState env).state.previous = a) ∧
    (∀ e, env.resolution = .err e →
      (runCycle cfg initialState env).mails = [("", [("all", some e)])]) := by
  refine ⟨?_, ?_, ?_⟩
  · intro a hres
    by_cases ha : a = initialState.previous
    · simp [runCycle, hres, ha]
    · simp only [runCycle, hres]
      rw [if_neg ha]
      split <;> simp [initialState]
  · exact fun a hres hany => runCycle_prev_success cfg initialState env a hres hany
  · intro e hres
    simp [runCycle, hres]

/-- C6 witness: a concrete failed first-cycle resolution invokes the sink. -/
theorem C6_first_cycle_witness :
    (runCycle oneDomainFlags initialState
      { resolution := .err "no transport", provider := fun _ => aRecordEnv }).mails =
      [("", [("all", some "no transport")])] :=
  (C6_first_cycle oneDomainFlags
    { resolution := .err "no transport", provider := fun _ => aRecordEnv }).2.2
    "no transport" rfl

/-- Flags with the two configured domains of the end-to-end scenario. -/
def threeCycleFlags : Flags :=
  { userFlag := "u", keyFlag := "k", domainsFlag := "a.b.c,d.e.f", ttlFlag := 120 }

/-- Per-cycle provider behaviour making both domains' updates succeed. -/
def twoDomainProv : Nat → ProviderEnv := fun i =>
  if i = 0 then aRecordEnv else dRecordEnv

/-- The end-to-end scenario: resolution sequence "1.1.1.1", "1.1.1.1",
"2.2.2.2" over three ticks, two configured domains, every update
succeeding. -/
def threeCycleRun : List CycleOutput :=
  runCycles threeCycleFlags initialState
    [{ resolution := .ok "1.1.1.1", provider := twoDomainProv },
     { resolution := .ok "1.1.1.1", provider := twoDomainProv },
     { resolution := .ok "2.2.2.2", provider := twoDomainProv }]

/-- C7 counterexample: in the end-to-end scenario the provider receives 4
`rec_edit` (update) calls over the three cycles — one per domain in each of
the two updating cycles — not 2 as claimed. -/
theorem C7_counterexample :
    (threeCycleRun.map countEdits).sum = 4 ∧
    (threeCycleRun.map countEdits).sum ≠ 2 := by
  decide

/-- C7 amended: update calls happen only in cycles 1 and 3 (two `rec_edit`
calls each, 4 in total over the three cycles), and the report sink is
invoked exactly once, in cycle 3, with the new address and both domains
successful. -/
theorem C7_update_schedule :
    threeCycleRun.map countEdits = [2, 0, 2] ∧
    threeCycleRun.map (fun o => o.mails) =
      [[], [], [("2.2.2.2", [("a.b.c", none), ("d.e.f", none)])]] := by
  decide

/-!
The per-domain loop covers every configured domain, in order, as long as no
`updateDNS` call panics — and `updateDNS` panics exactly on domains the
splitting regex does not match.
-/

lemma updateDNS_no_panic {domain : String}
    (h : (domainSplitterSubmatch domain).isSome = true)
    (address user key : String) (ttl : Nat) (env : ProviderEnv) :
    (updateDNS address user key domain ttl env).1 ≠ .panic ∧
    (updateDNS address user key domain ttl env).1 ≠ .fatal := by
  rcases hs : domainSplitterSubmatch domain with _ | ⟨record, zone⟩
  · rw [hs] at h
    simp at h
  · rcases hr : resolveRecordId user key zone record env.listResp with ⟨res, calls⟩
    cases res with
    | error e => constructor <;> simp [updateDNS, hs, hr]
    | ok id =>
      cases he : env.editResp with
      | error e2 => constructor <;> simp [updateDNS, hs, hr, he]
      | ok resp =>
        by_cases hr2 : resp.result = "error" <;>
          constructor <;> simp [updateDNS, hs, hr, he, hr2]

lemma processDomains_complete (cfg : Flags) (address : String)
    (env : Nat → ProviderEnv) :
    ∀ (hosts : List String) (i : Nat) (prev : String),
      (∀ host ∈ hosts, (domainSplitterSubmatch host).isSome = true) →
      (processDomains cfg address env hosts i prev).results.map Prod.fst = hosts ∧
      (processDomains cfg address env hosts i prev).aborted = false := by
  intro hosts
  induction hosts with
  | nil =>
    intro i prev _
    simp [processDomains]
  | cons host rest ih =>
    intro i prev hdom
    have hh := hdom host (List.mem_cons_self host rest)
    have hnp := updateDNS_no_panic hh address cfg.userFlag cfg.keyFlag cfg.ttlFlag (env i)
    have hrest : ∀ h2 ∈ rest, (domainSplitterSubmatch h2).isSome = true :=
      fun h2 hm => hdom h2 (List.mem_cons_of_mem host hm)
    rcases hu : updateDNS address cfg.userFlag cfg.keyFlag host cfg.ttlFlag (env i)
      with ⟨res, calls⟩
    rw [hu] at hnp
    cases res with
    | ok v =>
      have ihn := ih (i + 1) address hrest
      simp only [processDomains, hu, List.map_cons]
      exact ⟨by rw [ihn.1], ihn.2⟩
    | err e =>
      have ihn := ih (i + 1) prev hrest
      simp only [processDomains, hu, List.map_cons]
      exact ⟨by rw [ihn.1], ihn.2⟩
    | panic => exact absurd rfl hnp.1
    | fatal => exact absurd rfl hnp.2

/-- Flags whose domain list mixes a malformed (two-label) domain with a
well-formed one. -/
def mixedDomainFlags : Flags :=
  { userFlag := "u", keyFlag := "k", domainsFlag := "example.com,a.b.c", ttlFlag := 120 }

/-- Flags with two well-formed configured domains. -/
def twoGoodFlags : Flags :=
  { userFlag := "u", keyFlag := "k", domainsFlag := "a.b.c,d.e.f", ttlFlag := 120 }

/-- C8 counterexample: with the configured domain list
"example.com,a.b.c" and a changed address, the first domain's updateDNS
panics (two labels only), the process dies, and the second — perfectly
well-formed — domain receives no update attempt at all: no provider call
is made and no outcome is recorded for it. -/
theorem C8_counterexample :
    (runCycle mixedDomainFlags initialState
      { resolution := .ok "1.1.1.1", provider := fun _ => aRecordEnv }).aborted = true ∧
    (runCycle mixedDomainFlags initialState
      { resolution := .ok "1.1.1.1", provider := fun _ => aRecordEnv }).results = [] ∧
    (runCycle mixedDomainFlags initialState
      { resolution := .ok "1.1.1.1", provider := fun _ => aRecordEnv }).calls = [] := by
  decide

/-- C8 amended: in every cycle whose resolved address differs from
`previous`, provided every configured domain is matched by the splitting
regex, each configured domain receives exactly one update attempt, in the
configured (comma-separated) order, and a failed attempt on one domain does
not block the attempts on subsequent domains — the cycle records exactly
one outcome per configured domain, in order, and completes. -/
theorem C8_each_domain_once (cfg : Flags) (st : LoopState) (env : CycleEnv)
    (a : String) (hres : env.resolution = .ok a) (hne : a ≠ st.previous)
    (hdom : ∀ host ∈ stringsSplit ',' cfg.domainsFlag,
      (domainSplitterSubmatch host).isSome = true) :
    (runCycle cfg st env).results.map Prod.fst = stringsSplit ',' cfg.domainsFlag ∧
    (runCycle cfg st env).aborted = false := by
  have hp := processDomains_complete cfg a env.provider
    (stringsSplit ',' cfg.domainsFlag) 0 st.previous hdom
  simp only [runCycle, hres]
  rw [if_neg hne]
  simp only [hp.2, if_false]
  exact ⟨hp.1, rfl⟩

/-- C8 witness: a concrete changed-address cycle over two well-formed
domains, the first failing and the second still attempted. -/
theorem C8_each_domain_once_witness :
    (runCycle twoGoodFlags initialState
      { resolution := .ok "1.1.1.1", provider := fun _ => deniedEnv }).results.map
      Prod.fst = ["a.b.c", "d.e.f"] :=
  (C8_each_domain_once twoGoodFlags initialState
    { resolution := .ok "1.1.1.1", provider := fun _ => deniedEnv }
    "1.1.1.1" rfl (by decide) (by decide)).1
